import Mathlib

/-!
Verification of the ranking core of a crowd-voting leaderboard.

The program keeps a collection of items ("Pokemon"), each a record with an
`elo` rating and `wins`/`losses` counters; the record fields may be absent
on partially seeded data, so each is modelled as an `Option` and every read
in the selector goes through a default of `0`, mirroring the source's
`pokemon.get("wins", 0)` etc.

Two components are embedded here, straight from `src/app/main.py`:

* `select_pokemon` (lines 151-193): the matchup selector.  Randomness is
  made explicit as a `Draw` record: `behavior` stands for the
  `random.random()` result, `quartile` for `random.randint(0, 3)`, and
  `i`, `j` parametrise `random.sample(lst, 2)`.  `sample2` maps the pair
  `(i, j)` onto an ordered pair of distinct in-range indices, so ranging
  over all naturals `i`, `j` ranges exactly over all ordered pairs of
  distinct elements the Python call can produce; on a list with fewer than
  two elements it fails, as `random.sample` raises `ValueError`.  Python's
  `min(..., key=...)` (first minimiser, `ValueError` on an empty sequence)
  is `minByCC`, and Python's stable `sorted(..., key=...)` is
  `List.insertionSort` by the key, which is also stable.

* `calculate_elo` (lines 258-277): the rating engine, embedded over the
  exact reals with `10 ^ x` as the real power function.
-/

/-- An item record.  `none` in a field models a key absent from the
Python dict; the selector reads every field through a default of `0`. -/
structure Pokemon where
  id : Nat
  elo : Option ℚ
  wins : Option Nat
  losses : Option Nat
deriving DecidableEq, Repr

/-- `pokemon.get("wins", 0) + pokemon.get("losses", 0)`: the comparison
count of an item, with missing counters defaulting to `0`. -/
def compCount (p : Pokemon) : Nat :=
  p.wins.getD 0 + p.losses.getD 0

/-- `pokemon.get("elo", 0)`: the rating used as the sort key. -/
def eloD (p : Pokemon) : ℚ :=
  p.elo.getD 0

/-- Replace every missing field by the default `0` the code reads. -/
def fillDefaults (p : Pokemon) : Pokemon :=
  { p with
    elo := some (p.elo.getD 0)
    wins := some (p.wins.getD 0)
    losses := some (p.losses.getD 0) }

/-- The two places `select_pokemon` can raise a Python `ValueError`:
`random.sample` on a population of fewer than two elements, and `min`
on an empty sequence. -/
inductive SelectError where
  | sampleLargerThanPopulation : SelectError
  | minEmptySequence : SelectError
deriving DecidableEq, Repr

deriving instance DecidableEq for Except

/-- One random draw consumed by a call to `select_pokemon`:
`behavior` is the `random.random()` value, `quartile` the
`random.randint(0, 3)` value, and `i`, `j` drive the single
`random.sample(lst, 2)` call the execution path reaches. -/
structure Draw where
  behavior : ℚ
  quartile : Fin 4
  i : Nat
  j : Nat

/-- `random.sample(l, 2)`: two elements at distinct indices, `ValueError`
when the population has fewer than two elements.  `(i, j)` is folded onto
the ordered pair of distinct indices `(i % n, j')`, a surjection from
`Nat × Nat`, so quantifying over all `i j` covers every outcome. -/
def sample2 (l : List α) (i j : Nat) : Except SelectError (α × α) :=
  if h : 2 ≤ l.length then
    let i1 : Nat := i % l.length
    let j0 : Nat := j % (l.length - 1)
    let j1 : Nat := if i1 ≤ j0 then j0 + 1 else j0
    have hi : i1 < l.length := Nat.mod_lt _ (by omega)
    have hj0 : j0 < l.length - 1 := Nat.mod_lt _ (by omega)
    have hj : j1 < l.length := by
      simp only [j1]
      split <;> omega
    Except.ok (l.get ⟨i1, hi⟩, l.get ⟨j1, hj⟩)
  else
    Except.error SelectError.sampleLargerThanPopulation

/-- `min(pokemon_data, key=lambda x: x.get("wins", 0) + x.get("losses", 0))`:
first element with minimal comparison count, `none` on the empty list
(where Python raises `ValueError`). -/
def minByCC (l : List Pokemon) : Option Pokemon :=
  l.foldl
    (fun acc p =>
      match acc with
      | none => some p
      | some q => if compCount p < compCount q then some p else some q)
    none

/-- The `not_compared` list of `select_pokemon`: items whose
wins + losses total is `0`. -/
def notCompared (l : List Pokemon) : List Pokemon :=
  l.filter fun p => compCount p == 0

/-- The candidate pool of the `behavior < 0.25` branch: every item whose
comparison count equals the minimum comparison count (empty when the
collection is empty). -/
def fewestPool (l : List Pokemon) : List Pokemon :=
  match minByCC l with
  | none => []
  | some fewest => l.filter fun p => compCount p == compCount fewest

/-- The slice `sorted_pokemon[start_index:end_index]` of the
`0.25 ≤ behavior < 0.75` branch: sort by `elo` ascending (stably), take
the quartile of size `len // 4` at index `q`. -/
def quartilePool (l : List Pokemon) (q : Fin 4) : List Pokemon :=
  let sorted_pokemon := List.insertionSort (fun a b => eloD a ≤ eloD b) l
  let quartile_size := sorted_pokemon.length / 4
  let start_index := q.val * quartile_size
  (sorted_pokemon.drop start_index).take quartile_size

/-- `select_pokemon(pokemon_data)` from `src/app/main.py`, lines 151-193,
with the random draw explicit. -/
def select_pokemon (pokemon_data : List Pokemon) (d : Draw) :
    Except SelectError (Pokemon × Pokemon) :=
  let not_compared := notCompared pokemon_data
  if 1 < not_compared.length then
    sample2 not_compared d.i d.j
  else if d.behavior < mkRat 1 4 then
    match minByCC pokemon_data with
    | none => Except.error SelectError.minEmptySequence
    | some fewest =>
      let fewest_wins_losses :=
        pokemon_data.filter fun p => compCount p == compCount fewest
      if 1 < fewest_wins_losses.length then
        sample2 fewest_wins_losses d.i d.j
      else
        sample2 pokemon_data d.i d.j
  else if d.behavior < mkRat 3 4 then
    let quartile_pokemon := quartilePool pokemon_data d.quartile
    if 1 < quartile_pokemon.length then
      sample2 quartile_pokemon d.i d.j
    else
      sample2 pokemon_data d.i d.j
  else
    sample2 pokemon_data d.i d.j

/-- The result is an ok pair whose two components sit at two distinct
valid indices of `pool` — i.e. a without-replacement sample of `pool`. -/
def isPairFrom (res : Except SelectError (Pokemon × Pokemon))
    (pool : List Pokemon) : Prop :=
  ∃ (i : Nat) (j : Nat) (hi : i < pool.length) (hj : j < pool.length),
    i ≠ j ∧ res = Except.ok (pool.get ⟨i, hi⟩, pool.get ⟨j, hj⟩)

/-- Modelled from the spec's words for the `r < 0.25` branch (the code
has no such pool): sort by comparison count ascending and keep the bottom
decile, the lowest 10% of the indices. -/
def bottomDecilePool (l : List Pokemon) : List Pokemon :=
  (List.insertionSort (fun a b => compCount a ≤ compCount b) l).take
    (l.length / 10)

/-- Modelled from the spec's words for the tiered branch (the code fixes
four divisions): with division count `d` and slice index `idx`, sort by
`elo` ascending and take the slice of size `len / d` starting at
`idx * (len / d)`. -/
def specTieredSlice (l : List Pokemon) (d idx : Nat) : List Pokemon :=
  let sorted := List.insertionSort (fun a b => eloD a ≤ eloD b) l
  let size := l.length / d
  (sorted.drop (idx * size)).take size

/-- `expected_a` of `calculate_elo`, over the exact reals. -/
noncomputable def expected_a (rating_a rating_b : ℝ) : ℝ :=
  1 / (1 + (10 : ℝ) ^ ((rating_b - rating_a) / 400))

/-- `expected_b` of `calculate_elo`, over the exact reals. -/
noncomputable def expected_b (rating_a rating_b : ℝ) : ℝ :=
  1 / (1 + (10 : ℝ) ^ ((rating_a - rating_b) / 400))

/-- `calculate_elo(rating_a, rating_b, result, k_factor=32)` from
`src/app/main.py`, lines 258-277, over the exact reals. -/
noncomputable def calculate_elo (rating_a rating_b result : ℝ)
    (k_factor : ℝ := 32) : ℝ × ℝ :=
  (rating_a + k_factor * (result - expected_a rating_a rating_b),
   rating_b + k_factor * ((1 - result) - expected_b rating_a rating_b))

/-! ### Concrete data used for witnesses and counterexamples -/

/-- Two never-compared items. -/
def twoFresh : List Pokemon :=
  [⟨0, some 0, some 0, some 0⟩, ⟨1, some 0, some 0, some 0⟩]

/-- A single item: too small a collection to sample a pair from. -/
def loneItem : List Pokemon :=
  [⟨0, none, none, none⟩]

/-- Three seeded items, the first two tied at the minimum comparison count. -/
def threeTied : List Pokemon :=
  [⟨0, some 0, some 1, some 0⟩, ⟨1, some 0, some 1, some 0⟩,
   ⟨2, some 0, some 2, some 0⟩]

/-- Eight seeded items with ascending ratings and one comparison each. -/
def eightSeeded : List Pokemon :=
  (List.range 8).map fun n => ⟨n, some (n : ℚ), some 1, some 0⟩

/-- Two seeded items with the same non-zero comparison count. -/
def twoSeeded : List Pokemon :=
  [⟨0, some 3, some 1, some 0⟩, ⟨1, some 7, some 0, some 1⟩]

/-- An item with every field missing, next to a fully seeded one. -/
def halfSeeded : List Pokemon :=
  [⟨0, none, none, none⟩, ⟨1, some 5, some 1, some 0⟩]

/-- Twenty seeded items whose comparison counts are 1, 1, 1, 2, 3, ..., 18:
three items are tied at the minimum, but the bottom decile holds only two. -/
def ceFewestList : List Pokemon :=
  (List.range 20).map fun n =>
    ⟨n, some 0, some (if n < 3 then 1 else n - 1), some 0⟩

/-- Forty seeded items with ascending ratings and one comparison each. -/
def ceTieredList : List Pokemon :=
  (List.range 40).map fun n => ⟨n, some (n : ℚ), some 1, some 0⟩

/-- A draw with `random.random() = 0`, landing in the fewest-compared band. -/
def drawLow : Draw := ⟨0, 0, 2, 0⟩

/-- A draw with `random.random() = 1/2`, landing in the tiered band. -/
def drawMid : Draw := ⟨mkRat 1 2, 0, 0, 0⟩

/-! ### Basic properties of the sampling and min helpers -/

theorem isPairFrom_sample2 (l : List Pokemon) (i j : Nat) (h : 2 ≤ l.length) :
    isPairFrom (sample2 l i j) l := by
  have hi : i % l.length < l.length := Nat.mod_lt _ (by omega)
  have hj0 : j % (l.length - 1) < l.length - 1 := Nat.mod_lt _ (by omega)
  by_cases hc : i % l.length ≤ j % (l.length - 1)
  · exact ⟨i % l.length, j % (l.length - 1) + 1, hi, by omega, by omega,
      by simp [sample2, h, hc]⟩
  · exact ⟨i % l.length, j % (l.length - 1), hi, by omega, by omega,
      by simp [sample2, h, hc]⟩

theorem sample2_mem (l : List Pokemon) (i j : Nat) (h : 2 ≤ l.length) :
    ∃ a b, sample2 l i j = Except.ok (a, b) ∧ a ∈ l ∧ b ∈ l := by
  obtain ⟨i', j', hi, hj, hne, he⟩ := isPairFrom_sample2 l i j h
  exact ⟨_, _, he, l.get_mem _ _, l.get_mem _ _⟩

theorem sample2_error (l : List Pokemon) (i j : Nat) (h : l.length < 2) :
    sample2 l i j = Except.error SelectError.sampleLargerThanPopulation := by
  simp [sample2]
  omega

theorem foldl_minStep_some (l : List Pokemon) (q : Pokemon) :
    ∃ m, l.foldl
      (fun acc p =>
        match acc with
        | none => some p
        | some q => if compCount p < compCount q then some p else some q)
      (some q) = some m := by
  induction l generalizing q with
  | nil => exact ⟨q, rfl⟩
  | cons p l ih =>
    simp only [List.foldl_cons]
    by_cases hc : compCount p < compCount q
    · simpa [hc] using ih p
    · simpa [hc] using ih q

theorem minByCC_of_ne_nil (l : List Pokemon) (h : l ≠ []) :
    ∃ m, minByCC l = some m := by
  cases l with
  | nil => exact absurd rfl h
  | cons p l => simpa [minByCC] using foldl_minStep_some l p

theorem mem_of_mem_quartilePool {p : Pokemon} {l : List Pokemon} {q : Fin 4}
    (h : p ∈ quartilePool l q) : p ∈ l := by
  have h1 : p ∈ List.insertionSort (fun a b => eloD a ≤ eloD b) l :=
    List.mem_of_mem_drop (List.mem_of_mem_take h)
  exact (List.perm_insertionSort _ l).mem_iff.mp h1

/-! ### Branch behaviour of the selector -/

theorem select_pokemon_ok_mem (l : List Pokemon) (d : Draw) (h : 2 ≤ l.length) :
    ∃ a b, select_pokemon l d = Except.ok (a, b) ∧ a ∈ l ∧ b ∈ l := by
  unfold select_pokemon
  by_cases h1 : 1 < (notCompared l).length
  · simp only [if_pos h1]
    obtain ⟨a, b, he, ha, hb⟩ := sample2_mem (notCompared l) d.i d.j (by omega)
    exact ⟨a, b, he, List.mem_of_mem_filter ha, List.mem_of_mem_filter hb⟩
  · simp only [if_neg h1]
    by_cases h2 : d.behavior < mkRat 1 4
    · simp only [if_pos h2]
      obtain ⟨m, hm⟩ := minByCC_of_ne_nil l (by rintro rfl; simp at h)
      rw [hm]
      simp only
      by_cases h3 : 1 < (l.filter fun p => compCount p == compCount m).length
      · simp only [if_pos h3]
        obtain ⟨a, b, he, ha, hb⟩ :=
          sample2_mem (l.filter fun p => compCount p == compCount m) d.i d.j
            (by omega)
        exact ⟨a, b, he, List.mem_of_mem_filter ha, List.mem_of_mem_filter hb⟩
      · simp only [if_neg h3]
        exact sample2_mem l d.i d.j h
    · simp only [if_neg h2]
      by_cases h4 : d.behavior < mkRat 3 4
      · simp only [if_pos h4]
        by_cases h5 : 1 < (quartilePool l d.quartile).length
        · simp only [if_pos h5]
          obtain ⟨a, b, he, ha, hb⟩ :=
            sample2_mem (quartilePool l d.quartile) d.i d.j (by omega)
          exact ⟨a, b, he, mem_of_mem_quartilePool ha, mem_of_mem_quartilePool hb⟩
        · simp only [if_neg h5]
          exact sample2_mem l d.i d.j h
      · simp only [if_neg h4]
        exact sample2_mem l d.i d.j h

theorem select_fewest_pairFrom (l : List Pokemon) (d : Draw)
    (h1 : (notCompared l).length ≤ 1) (h2 : d.behavior < mkRat 1 4)
    (h3 : 1 < (fewestPool l).length) :
    isPairFrom (select_pokemon l d) (fewestPool l) := by
  have hnil : l ≠ [] := by
    rintro rfl
    simp [fewestPool, minByCC] at h3
  obtain ⟨m, hm⟩ := minByCC_of_ne_nil l hnil
  have hpool : fewestPool l = l.filter fun p => compCount p == compCount m := by
    simp [fewestPool, hm]
  rw [hpool] at h3 ⊢
  unfold select_pokemon
  simp only [if_neg (by omega : ¬ 1 < (notCompared l).length), if_pos h2, hm]
  simp only [if_pos h3]
  exact isPairFrom_sample2 _ _ _ (by omega)

theorem select_tiered_pairFrom (l : List Pokemon) (d : Draw)
    (h1 : (notCompared l).length ≤ 1) (h2 : mkRat 1 4 ≤ d.behavior)
    (h3 : d.behavior < mkRat 3 4) (h4 : 1 < (quartilePool l d.quartile).length) :
    isPairFrom (select_pokemon l d) (quartilePool l d.quartile) := by
  unfold select_pokemon
  simp only [if_neg (by omega : ¬ 1 < (notCompared l).length),
    if_neg (not_lt.mpr h2), if_pos h3, if_pos h4]
  exact isPairFrom_sample2 _ _ _ (by omega)

theorem select_pokemon_error (l : List Pokemon) (d : Draw) (h : l.length < 2) :
    ∃ e, select_pokemon l d = Except.error e := by
  have hfil : ∀ f : Pokemon → Bool, (l.filter f).length < 2 :=
    fun f => lt_of_le_of_lt (List.length_filter_le _ _) h
  have hnc : (notCompared l).length < 2 := hfil _
  have hq : (quartilePool l d.quartile).length = 0 := by
    have h4 : (List.insertionSort (fun a b => eloD a ≤ eloD b) l).length / 4 = 0 := by
      rw [List.length_insertionSort]
      omega
    simp [quartilePool, h4]
    omega
  unfold select_pokemon
  simp only [if_neg (by omega : ¬ 1 < (notCompared l).length)]
  by_cases h2 : d.behavior < mkRat 1 4
  · simp only [if_pos h2]
    cases hm : minByCC l with
    | none => exact ⟨_, rfl⟩
    | some m =>
      have := hfil fun p => compCount p == compCount m
      simp only [if_neg
        (by omega : ¬ 1 < (l.filter fun p => compCount p == compCount m).length)]
      exact ⟨_, sample2_error l d.i d.j h⟩
  · simp only [if_neg h2]
    by_cases h3 : d.behavior < mkRat 3 4
    · simp only [if_pos h3,
        if_neg (by omega : ¬ 1 < (quartilePool l d.quartile).length)]
      exact ⟨_, sample2_error l d.i d.j h⟩
    · simp only [if_neg h3]
      exact ⟨_, sample2_error l d.i d.j h⟩

/-! ### The selector only reads fields through their defaults -/

theorem compCount_fillDefaults (p : Pokemon) :
    compCount (fillDefaults p) = compCount p := by
  simp [compCount, fillDefaults]

theorem eloD_fillDefaults (p : Pokemon) :
    eloD (fillDefaults p) = eloD p := by
  simp [eloD, fillDefaults]

theorem notCompared_map_fill (l : List Pokemon) :
    notCompared (l.map fillDefaults) = (notCompared l).map fillDefaults := by
  simp [notCompared, List.filter_map, Function.comp_def, compCount_fillDefaults]

theorem foldl_minStep_map_fill (l : List Pokemon) (acc : Option Pokemon) :
    (l.map fillDefaults).foldl
      (fun acc p =>
        match acc with
        | none => some p
        | some q => if compCount p < compCount q then some p else some q)
      (acc.map fillDefaults)
    = (l.foldl
        (fun acc p =>
          match acc with
          | none => some p
          | some q => if compCount p < compCount q then some p else some q)
        acc).map fillDefaults := by
  induction l generalizing acc with
  | nil => rfl
  | cons p t ih =>
    simp only [List.map_cons, List.foldl_cons]
    cases acc with
    | none => exact ih (some p)
    | some q =>
      simp only [Option.map_some', compCount_fillDefaults]
      by_cases hc : compCount p < compCount q
      · simp only [if_pos hc]
        exact ih (some p)
      · simp only [if_neg hc]
        exact ih (some q)

theorem minByCC_map_fill (l : List Pokemon) :
    minByCC (l.map fillDefaults) = (minByCC l).map fillDefaults := by
  simpa using foldl_minStep_map_fill l none

theorem orderedInsert_map_fill (a : Pokemon) (l : List Pokemon) :
    List.orderedInsert (fun x y => eloD x ≤ eloD y) (fillDefaults a)
      (l.map fillDefaults) =
      (List.orderedInsert (fun x y => eloD x ≤ eloD y) a l).map fillDefaults := by
  induction l with
  | nil => rfl
  | cons b t ih =>
    by_cases hc : eloD a ≤ eloD b
    · simp [List.orderedInsert, eloD_fillDefaults, hc]
    · simp [List.orderedInsert, eloD_fillDefaults, hc, ih]

theorem insertionSort_map_fill (l : List Pokemon) :
    List.insertionSort (fun x y => eloD x ≤ eloD y) (l.map fillDefaults) =
      (List.insertionSort (fun x y => eloD x ≤ eloD y) l).map fillDefaults := by
  induction l with
  | nil => rfl
  | cons a t ih =>
    simp only [List.map_cons, List.insertionSort, ih, orderedInsert_map_fill]

theorem quartilePool_map_fill (l : List Pokemon) (q : Fin 4) :
    quartilePool (l.map fillDefaults) q = (quartilePool l q).map fillDefaults := by
  simp only [quartilePool, insertionSort_map_fill, List.length_map]
  rw [← List.map_drop, ← List.map_take]

theorem get_map_fill (l : List Pokemon) (n : Nat)
    (h : n < (l.map fillDefaults).length) :
    (l.map fillDefaults).get ⟨n, h⟩ =
      fillDefaults (l.get ⟨n, by simpa using h⟩) := by
  simp [List.get_eq_getElem, List.getElem_map]

theorem sample2_map_fill (l : List Pokemon) (i j : Nat) :
    sample2 (l.map fillDefaults) i j =
      (sample2 l i j).map fun p => (fillDefaults p.1, fillDefaults p.2) := by
  by_cases h : 2 ≤ l.length
  · have h' : 2 ≤ (l.map fillDefaults).length := by simpa using h
    simp only [sample2, List.length_map, dif_pos h, get_map_fill, Except.map]
  · have h' : ¬ 2 ≤ (l.map fillDefaults).length := by simpa using h
    simp only [sample2, List.length_map, dif_neg h, Except.map]

theorem select_pokemon_map_fill (l : List Pokemon) (d : Draw) :
    select_pokemon (l.map fillDefaults) d =
      (select_pokemon l d).map fun p => (fillDefaults p.1, fillDefaults p.2) := by
  unfold select_pokemon
  rw [notCompared_map_fill]
  simp only [List.length_map]
  by_cases h1 : 1 < (notCompared l).length
  · simp only [if_pos h1, sample2_map_fill]
  · simp only [if_neg h1]
    by_cases h2 : d.behavior < mkRat 1 4
    · simp only [if_pos h2, minByCC_map_fill]
      cases hm : minByCC l with
      | none => rfl
      | some m =>
        simp only [Option.map_some']
        have hp : ((l.map fillDefaults).filter
              fun p => compCount p == compCount (fillDefaults m))
            = (l.filter fun p => compCount p == compCount m).map fillDefaults := by
          simp [List.filter_map, Function.comp_def, compCount_fillDefaults]
        rw [hp]
        simp only [List.length_map]
        by_cases h3 : 1 < (l.filter fun p => compCount p == compCount m).length
        · simp only [if_pos h3, sample2_map_fill]
        · simp only [if_neg h3, sample2_map_fill]
    · simp only [if_neg h2]
      by_cases h4 : d.behavior < mkRat 3 4
      · simp only [if_pos h4, quartilePool_map_fill, List.length_map]
        by_cases h5 : 1 < (quartilePool l d.quartile).length
        · simp only [if_pos h5, sample2_map_fill]
        · simp only [if_neg h5, sample2_map_fill]
      · simp only [if_neg h4, sample2_map_fill]

/-! ### Properties of the rating engine -/

theorem rpow_sub_div_neg (a b : ℝ) :
    (10 : ℝ) ^ ((a - b) / 400) = ((10 : ℝ) ^ ((b - a) / 400))⁻¹ := by
  rw [show (a - b) / 400 = -((b - a) / 400) by ring,
    Real.rpow_neg (by norm_num : (0:ℝ) ≤ 10)]

theorem expected_add (a b : ℝ) : expected_a a b + expected_b a b = 1 := by
  have ht : (0 : ℝ) < (10 : ℝ) ^ ((b - a) / 400) :=
    Real.rpow_pos_of_pos (by norm_num) _
  rw [expected_a, expected_b, rpow_sub_div_neg]
  have h1 : (1 : ℝ) + (10 : ℝ) ^ ((b - a) / 400) ≠ 0 := by positivity
  have h2 : (1 : ℝ) + ((10 : ℝ) ^ ((b - a) / 400))⁻¹ ≠ 0 := by positivity
  field_simp
  ring

theorem expected_a_self (a : ℝ) : expected_a a a = 1/2 := by
  rw [expected_a, sub_self, zero_div, Real.rpow_zero]
  norm_num

theorem expected_b_self (a : ℝ) : expected_b a a = 1/2 := by
  rw [expected_b, sub_self, zero_div, Real.rpow_zero]
  norm_num

theorem expected_a_1400_1000 : expected_a 1400 1000 = 10/11 := by
  rw [expected_a, show ((1000:ℝ) - 1400) / 400 = ((-1 : ℤ) : ℝ) by norm_num,
    Real.rpow_intCast]
  norm_num

theorem expected_b_1400_1000 : expected_b 1400 1000 = 1/11 := by
  rw [expected_b, show ((1400:ℝ) - 1000) / 400 = (1 : ℝ) by norm_num,
    Real.rpow_one]
  norm_num

/-! ### The claims -/

/-- Claim C1: while more than one never-compared item (wins + losses = 0)
remains, `select_pokemon` returns, for every random draw, two distinct
items both drawn from the never-compared subset; no other policy branch
is exercised. -/
theorem select_never_compared_priority (l : List Pokemon) (d : Draw)
    (h : 1 < (notCompared l).length) :
    isPairFrom (select_pokemon l d) (notCompared l) := by
  unfold select_pokemon
  simp only [if_pos h]
  exact isPairFrom_sample2 _ _ _ (by omega)

theorem select_never_compared_priority_witness :
    1 < (notCompared twoFresh).length ∧
    isPairFrom (select_pokemon twoFresh drawMid) (notCompared twoFresh) :=
  ⟨by decide, select_never_compared_priority twoFresh drawMid (by decide)⟩

/-- Claim C2: on a collection of fewer than two items, `select_pokemon`
fails with an error (a Python `ValueError`, the spec's `InsufficientData`)
for every random draw; in the embedding the error is the result value, so
it reaches the caller. -/
theorem select_insufficient_data (l : List Pokemon) (d : Draw)
    (h : l.length < 2) :
    ∃ e, select_pokemon l d = Except.error e :=
  select_pokemon_error l d h

theorem select_insufficient_data_witness :
    loneItem.length < 2 ∧ ∃ e, select_pokemon loneItem drawMid = Except.error e :=
  ⟨by decide, select_insufficient_data loneItem drawMid (by decide)⟩

/-- Claim C3: with the default k-factor, `calculate_elo(a, b, 1)` and
`calculate_elo(b, a, 0)` produce the same two ratings, with the positions
swapped. -/
theorem calculate_elo_swap_symm (rating_a rating_b : ℝ) :
    (calculate_elo rating_a rating_b 1).1 = (calculate_elo rating_b rating_a 0).2 ∧
    (calculate_elo rating_a rating_b 1).2 = (calculate_elo rating_b rating_a 0).1 := by
  constructor <;>
    · simp only [calculate_elo, expected_a, expected_b]
      ring

/-- Claim C4: for every k-factor, equal ratings give expected scores of
exactly one half and a win moves A's rating up by k/2; in particular
`calculate_elo(1200, 1200, 1, 32) = (1216, 1184)`. -/
theorem calculate_elo_equal_ratings (a k : ℝ) :
    expected_a a a = 1/2 ∧ expected_b a a = 1/2 ∧
    (calculate_elo a a 1 k).1 - a = k/2 ∧
    calculate_elo 1200 1200 1 32 = (1216, 1184) := by
  refine ⟨expected_a_self a, expected_b_self a, ?_, ?_⟩
  · rw [calculate_elo, expected_a_self]
    ring
  · rw [calculate_elo, expected_a_self, expected_b_self]
    norm_num

/-- Claim C5 is false as stated: when the 1400-rated player loses to the
1000-rated player with k = 32, player A's rating drops by 320/11 ≈ 29.09,
which is not "roughly 2.95" (not even within ±1 of it). -/
theorem calculate_elo_upset_not_small :
    1400 - (calculate_elo 1400 1000 0 32).1 = 320/11 ∧
    ¬ |(1400 - (calculate_elo 1400 1000 0 32).1) - 2.95| < 1 := by
  have h : 1400 - (calculate_elo 1400 1000 0 32).1 = 320/11 := by
    rw [calculate_elo, expected_a_1400_1000]
    norm_num
  refine ⟨h, ?_⟩
  rw [h]
  rw [abs_of_pos (by norm_num)]
  norm_num

/-- Claim C5 (amended): `calculate_elo(1400, 1000, 0, 32)` lowers A's
rating by exactly 320/11 ≈ 29.09 and raises B's by the same amount, with
`expected_a = 10/11 ≈ 0.909`. -/
theorem calculate_elo_upset_magnitude :
    (calculate_elo 1400 1000 0 32).1 = 1400 - 320/11 ∧
    (calculate_elo 1400 1000 0 32).2 = 1000 + 320/11 ∧
    expected_a 1400 1000 = 10/11 := by
  refine ⟨?_, ?_, expected_a_1400_1000⟩
  · rw [calculate_elo, expected_a_1400_1000]
    norm_num
  · rw [calculate_elo, expected_b_1400_1000]
    norm_num

/-- Claim C6 is false as stated: with twenty items whose comparison counts
are 1, 1, 1, 2, 3, ..., the code's `behavior < 0.25` branch samples from
all three items tied at the minimum count and can return the third one,
which lies outside the spec's bottom-decile pool (the lowest 10% of the
sort: two items). -/
theorem fewest_branch_not_bottom_decile :
    (notCompared ceFewestList).length ≤ 1 ∧
    drawLow.behavior < mkRat 1 4 ∧
    select_pokemon ceFewestList drawLow =
      Except.ok (⟨2, some 0, some 1, some 0⟩, ⟨0, some 0, some 1, some 0⟩) ∧
    (⟨2, some 0, some 1, some 0⟩ : Pokemon) ∉ bottomDecilePool ceFewestList := by
  refine ⟨by decide, by decide, by decide, by decide⟩

/-- Claim C6 (amended): in the `r < 0.25` branch the candidate pool is the
set of items whose comparison count equals the minimum over the collection;
whenever that pool has at least two items the returned pair is two distinct
items drawn from it. -/
theorem fewest_branch_pool (l : List Pokemon) (d : Draw)
    (h1 : (notCompared l).length ≤ 1) (h2 : d.behavior < mkRat 1 4)
    (h3 : 1 < (fewestPool l).length) :
    isPairFrom (select_pokemon l d) (fewestPool l) :=
  select_fewest_pairFrom l d h1 h2 h3

theorem fewest_branch_pool_witness :
    (notCompared threeTied).length ≤ 1 ∧ drawLow.behavior < mkRat 1 4 ∧
    1 < (fewestPool threeTied).length ∧
    isPairFrom (select_pokemon threeTied drawLow) (fewestPool threeTied) :=
  ⟨by decide, by decide, by decide,
    fewest_branch_pool threeTied drawLow (by decide) (by decide) (by decide)⟩

/-- Claim C7 is false as stated: the code fixes four divisions. With forty
items sorted by rating, a five-division split would make the pair of the
8th and 15th items reachable (they share the five-division slice at index
1, which has eight items), yet no draw in the tiered band can produce that
pair: every tiered-band pair lies inside a single quartile, and those two
items lie in different quartiles. -/
theorem tiered_branch_not_variable_divisions :
    (2 ≤ (specTieredSlice ceTieredList 5 1).length ∧
      (⟨8, some 8, some 1, some 0⟩ : Pokemon) ∈ specTieredSlice ceTieredList 5 1 ∧
      (⟨15, some 15, some 1, some 0⟩ : Pokemon) ∈ specTieredSlice ceTieredList 5 1) ∧
    ∀ d : Draw, mkRat 1 4 ≤ d.behavior → d.behavior < mkRat 3 4 →
      select_pokemon ceTieredList d ≠
        Except.ok (⟨8, some 8, some 1, some 0⟩, ⟨15, some 15, some 1, some 0⟩) := by
  refine ⟨⟨by decide, by decide, by decide⟩, ?_⟩
  intro d h1 h2 hsel
  have h4 : ∀ q : Fin 4, 1 < (quartilePool ceTieredList q).length := by decide
  obtain ⟨i', j', hi, hj, hne, he⟩ :=
    select_tiered_pairFrom ceTieredList d (by decide) h1 h2 (h4 d.quartile)
  have heq := hsel.symm.trans he
  simp only [Except.ok.injEq, Prod.mk.injEq] at heq
  have h8 : (⟨8, some 8, some 1, some 0⟩ : Pokemon) ∈
      quartilePool ceTieredList d.quartile := by
    rw [heq.1]
    exact List.get_mem _ _ _
  have h15 : (⟨15, some 15, some 1, some 0⟩ : Pokemon) ∈
      quartilePool ceTieredList d.quartile := by
    rw [heq.2]
    exact List.get_mem _ _ _
  have hnot : ∀ q : Fin 4,
      ¬((⟨8, some 8, some 1, some 0⟩ : Pokemon) ∈ quartilePool ceTieredList q ∧
        (⟨15, some 15, some 1, some 0⟩ : Pokemon) ∈ quartilePool ceTieredList q) := by
    decide
  exact hnot d.quartile ⟨h8, h15⟩

/-- Claim C7 (amended): the tiered branch uses a fixed division count of
four: sort by rating ascending, slice into quartiles of size ⌊n/4⌋, pick
the slice index uniformly from {0, 1, 2, 3}, and whenever the slice has at
least two items return two distinct items drawn from it. -/
theorem tiered_branch_pool (l : List Pokemon) (d : Draw)
    (h1 : (notCompared l).length ≤ 1) (h2 : mkRat 1 4 ≤ d.behavior)
    (h3 : d.behavior < mkRat 3 4) (h4 : 1 < (quartilePool l d.quartile).length) :
    isPairFrom (select_pokemon l d) (quartilePool l d.quartile) :=
  select_tiered_pairFrom l d h1 h2 h3 h4

theorem tiered_branch_pool_witness :
    (notCompared eightSeeded).length ≤ 1 ∧ mkRat 1 4 ≤ drawMid.behavior ∧
    drawMid.behavior < mkRat 3 4 ∧
    1 < (quartilePool eightSeeded drawMid.quartile).length ∧
    isPairFrom (select_pokemon eightSeeded drawMid)
      (quartilePool eightSeeded drawMid.quartile) :=
  ⟨by decide, by decide, by decide, by decide,
    tiered_branch_pool eightSeeded drawMid (by decide) (by decide) (by decide)
      (by decide)⟩

/-- Claim C8: on a collection of at least two items with identical non-zero
comparison counts, every random draw yields a pair of members without an
error: each branch samples its pool when the pool has at least two items
and otherwise falls back to sampling the whole collection. -/
theorem select_total_on_uniform_counts (l : List Pokemon) (d : Draw) (c : Nat)
    (h2 : 2 ≤ l.length) (hc : ∀ p ∈ l, compCount p = c) (hc0 : 0 < c) :
    ∃ a b, select_pokemon l d = Except.ok (a, b) ∧ a ∈ l ∧ b ∈ l :=
  select_pokemon_ok_mem l d h2

theorem select_total_on_uniform_counts_witness :
    (2 ≤ twoSeeded.length ∧ (∀ p ∈ twoSeeded, compCount p = 1) ∧ 0 < 1) ∧
    ∃ a b, select_pokemon twoSeeded drawMid = Except.ok (a, b) ∧
      a ∈ twoSeeded ∧ b ∈ twoSeeded :=
  ⟨⟨by decide, by decide, by decide⟩,
    select_total_on_uniform_counts twoSeeded drawMid 1 (by decide) (by decide)
      (by decide)⟩

/-- Claim C9: the selector reads every possibly-missing field through a
default of 0, so it selects exactly as it would on the collection with the
missing fields filled in as 0, and on at least two items it returns a pair
of members without crashing. -/
theorem select_defaults_missing_fields (l : List Pokemon) (d : Draw)
    (h : 2 ≤ l.length) :
    select_pokemon (l.map fillDefaults) d =
      (select_pokemon l d).map (fun p => (fillDefaults p.1, fillDefaults p.2)) ∧
    ∃ a b, select_pokemon l d = Except.ok (a, b) ∧ a ∈ l ∧ b ∈ l :=
  ⟨select_pokemon_map_fill l d, select_pokemon_ok_mem l d h⟩

theorem select_defaults_missing_fields_witness :
    2 ≤ halfSeeded.length ∧
    (select_pokemon (halfSeeded.map fillDefaults) drawMid =
      (select_pokemon halfSeeded drawMid).map
        (fun p => (fillDefaults p.1, fillDefaults p.2)) ∧
    ∃ a b, select_pokemon halfSeeded drawMid = Except.ok (a, b) ∧
      a ∈ halfSeeded ∧ b ∈ halfSeeded) :=
  ⟨by decide, select_defaults_missing_fields halfSeeded drawMid (by decide)⟩

/-- Claim C10: the two ratings produced by `calculate_elo` always sum to
the sum of the two input ratings: the update is zero-sum for every result
and k-factor. -/
theorem calculate_elo_zero_sum (rating_a rating_b result k_factor : ℝ) :
    (calculate_elo rating_a rating_b result k_factor).1 +
      (calculate_elo rating_a rating_b result k_factor).2 =
      rating_a + rating_b := by
  have h : expected_a rating_a rating_b = 1 - expected_b rating_a rating_b := by
    linarith [expected_add rating_a rating_b]
  simp only [calculate_elo, h]
  ring
